import Mathlib

/-!
Verification development for the knowledge-consolidation core of the
knowledge_base repository: entity resolution (resolver.py), the shared
HTTP chat-completion client (http_client.py), the circuit breaker
(circuit_breaker.py), the embedding service (embedding_service.py),
recursive community summarization (summarizer.py), and the fallback
clustering of the community-detection module.

The Python code is shallowly embedded: pure fragments become Lean
functions; network and database effects are passed in as explicit
oracle arguments; Python exceptions are modelled with Except.
-/

namespace KB

/-- Python exceptions that can cross the boundaries modelled here. -/
inductive PyErr
  | requestError (msg : String)
  | indexError
  | circuitOpen
  | embeddingError
deriving DecidableEq

/-! ## Circuit breaker (circuit_breaker.py)

States CLOSED / OPEN / HALF_OPEN of the Python CircuitState enum are the
constructors closed / opened / halfOpen (the literal name open is a Lean
keyword). Wall-clock instants (Python time.time floats, used only through
subtraction and comparison) are modelled as integers. -/

inductive CircuitState
  | closed
  | opened
  | halfOpen
deriving DecidableEq

structure CircuitBreaker where
  failure_threshold : Nat
  recovery_timeout : Int
  half_open_max_attempts : Nat
  state : CircuitState
  failure_count : Nat
  last_failure_time : Option Int
  half_open_attempts : Nat
  total_requests : Nat
  failed_requests : Nat
  successful_requests : Nat
deriving DecidableEq

/-- CircuitBreaker.__init__ with the configuration arguments; all
counters start at zero, the state starts CLOSED. -/
def CircuitBreaker.init (failure_threshold : Nat) (recovery_timeout : Int)
    (half_open_max_attempts : Nat) : CircuitBreaker :=
  ⟨failure_threshold, recovery_timeout, half_open_max_attempts,
   .closed, 0, none, 0, 0, 0, 0⟩

/-- CircuitBreaker._should_attempt_recovery at wall-clock time now. -/
def CircuitBreaker.should_attempt_recovery (cb : CircuitBreaker) (now : Int) : Bool :=
  match cb.last_failure_time with
  | none => false
  | some t => decide (now - t ≥ cb.recovery_timeout)

/-- CircuitBreaker._record_success. -/
def CircuitBreaker.record_success (cb : CircuitBreaker) : CircuitBreaker :=
  { cb with
    successful_requests := cb.successful_requests + 1
    failure_count := 0
    half_open_attempts := 0
    state := .closed }

/-- CircuitBreaker._record_failure at wall-clock time now. -/
def CircuitBreaker.record_failure (cb : CircuitBreaker) (now : Int) : CircuitBreaker :=
  let cb₁ : CircuitBreaker :=
    { cb with
      failed_requests := cb.failed_requests + 1
      failure_count := cb.failure_count + 1
      last_failure_time := some now }
  if cb₁.state = .closed ∧ cb₁.failure_count ≥ cb₁.failure_threshold then
    { cb₁ with state := .opened }
  else if cb₁.state = .halfOpen then
    let cb₂ : CircuitBreaker :=
      { cb₁ with half_open_attempts := cb₁.half_open_attempts + 1 }
    if cb₂.half_open_attempts ≥ cb₂.half_open_max_attempts then
      { cb₂ with state := .opened }
    else cb₂
  else cb₁

/-- Outcome of the wrapped request, were it to be performed. -/
inductive CallOutcome
  | success
  | failure
deriving DecidableEq

inductive CallResult
  | ok
  | raisedOpenError
  | raisedFuncError
deriving DecidableEq

/-- Result of one CircuitBreaker.call: the updated breaker, how the call
ended, and whether the wrapped function was actually invoked (that is,
whether a network request was performed). -/
structure CallStep where
  cb : CircuitBreaker
  result : CallResult
  network : Bool
deriving DecidableEq

/-- The body of CircuitBreaker.call after the state check: invoke the
wrapped function and record the outcome. -/
def CircuitBreaker.call_exec (cb : CircuitBreaker) (now : Int)
    (outcome : CallOutcome) : CallStep :=
  match outcome with
  | .success => ⟨cb.record_success, .ok, true⟩
  | .failure => ⟨cb.record_failure now, .raisedFuncError, true⟩

/-- CircuitBreaker.call at wall-clock time now, with the outcome the
wrapped function would produce if invoked. -/
def CircuitBreaker.call (cb₀ : CircuitBreaker) (now : Int)
    (outcome : CallOutcome) : CallStep :=
  let cb : CircuitBreaker := { cb₀ with total_requests := cb₀.total_requests + 1 }
  if cb.state = .opened then
    if cb.should_attempt_recovery now then
      CircuitBreaker.call_exec
        { cb with state := .halfOpen, half_open_attempts := 0 } now outcome
    else ⟨cb, .raisedOpenError, false⟩
  else
    CircuitBreaker.call_exec cb now outcome

/-! ## Shared string helpers -/

/-- ASCII lower-casing of one character. Python str.lower is Unicode
aware; all strings handled by the resolver paths modelled here are
ASCII, where the two agree. -/
def lowerChar (c : Char) : Char :=
  if 65 ≤ c.toNat ∧ c.toNat ≤ 90 then Char.ofNat (c.toNat + 32) else c

/-- Python str.lower on an ASCII string. -/
def lowerStr (s : String) : String := ⟨s.data.map lowerChar⟩

/-! ## Name normalization (resolver.py, EntityResolver._normalize_name)

The four regex passes of _normalize_name are embedded as left-to-right
scanners with the exact semantics of Python re.sub on the patterns in
the source: the title pattern with a word boundary, IGNORECASE and
greedy trailing whitespace, the parenthetical pattern, whitespace
collapsing after str.strip, quote removal, then str.lower. -/

/-- Word characters of the regex word boundary (ASCII range of \w). -/
def isWordChar (c : Char) : Bool := c.isAlphanum || c = '_'

/-- Whitespace characters of the regex class \s (ASCII range). -/
def isSpaceChar (c : Char) : Bool :=
  c = ' ' || c = '\t' || c = '\n' || c = '\r' || c = '\x0c' || c = '\x0b'

/-- Case-insensitive match of the letters of base at the head of l;
returns the unconsumed rest on success. -/
def stripCI : List Char → List Char → Option (List Char)
  | [], l => some l
  | _ :: _, [] => none
  | p :: ps, c :: cs => if lowerChar c = lowerChar p then stripCI ps cs else none

/-- Match one alternative of shape T\.? of the title group: the letters
of base, then an optional dot (greedy). Returns whether the last
consumed character is a word character (needed by the scanner for the
next boundary test) and the unconsumed rest. -/
def matchTitleDot (base : List Char) (l : List Char) : Option (Bool × List Char) :=
  match stripCI base l with
  | none => none
  | some rest =>
    match rest with
    | '.' :: rest' => some (false, rest')
    | _ => some (true, rest)

/-- The alternation (Dr\.? | Director | Prof\.? | Mr\.? | Ms\.? | Mrs\.?)
tried in source order, case-insensitively. Because regex alternation is
ordered and the rest of the pattern (\s*) always succeeds, the first
alternative that matches wins; in particular Mrs is shadowed by Mr,
exactly as in the Python engine. -/
def matchTitleGroup (l : List Char) : Option (Bool × List Char) :=
  match matchTitleDot ['D','r'] l with
  | some r => some r
  | none =>
  match stripCI ['D','i','r','e','c','t','o','r'] l with
  | some rest => some (true, rest)
  | none =>
  match matchTitleDot ['P','r','o','f'] l with
  | some r => some r
  | none =>
  match matchTitleDot ['M','r'] l with
  | some r => some r
  | none =>
  match matchTitleDot ['M','s'] l with
  | some r => some r
  | none => matchTitleDot ['M','r','s'] l

/-- Consume the greedy \s* tail of the title pattern, tracking whether
the last consumed character is a word character. -/
def dropSpacesB (lastWord : Bool) : List Char → Bool × List Char
  | c :: cs => if isSpaceChar c then dropSpacesB false cs else (lastWord, c :: cs)
  | [] => (lastWord, [])

/-- Left-to-right scan of re.sub with the title pattern, replacing each
non-overlapping match by the empty string and continuing right after
the match, as the Python engine does. prevIsWord records whether the
character before the current position (in the original string) is a
word character, which decides the boundary test: since every
alternative starts with a letter, the pattern can match at a position
exactly when the previous character is not a word character and the
current one is. fuel bounds the recursion and always exceeds the
number of scan steps. -/
def stripTitlesGo (fuel : Nat) (prevIsWord : Bool) (l : List Char) : List Char :=
  match fuel with
  | 0 => l
  | Nat.succ fuel' =>
    match l with
    | [] => []
    | c :: cs =>
      if ¬ prevIsWord ∧ isWordChar c then
        match matchTitleGroup (c :: cs) with
        | some (lw, rest) =>
          let r := dropSpacesB lw rest
          stripTitlesGo fuel' r.1 r.2
        | none => c :: stripTitlesGo fuel' (isWordChar c) cs
      else c :: stripTitlesGo fuel' (isWordChar c) cs

/-- First pass of _normalize_name: strip honorific and role titles. At
the start of the string a word boundary holds before a word character,
so the scan starts with prevIsWord false. -/
def stripTitles (l : List Char) : List Char := stripTitlesGo (l.length + 1) false l

/-- Second pass of _normalize_name: remove parenthetical content. A
match is an opening parenthesis, a maximal run of characters that are
not a closing parenthesis, then the closing parenthesis; scanning
continues after the match. An opening parenthesis with no closing one
anywhere after it matches nothing and is kept. -/
def removeParensGo (fuel : Nat) (l : List Char) : List Char :=
  match fuel with
  | 0 => l
  | Nat.succ fuel' =>
    match l with
    | [] => []
    | c :: cs =>
      if c = '(' ∧ cs.contains ')' then
        removeParensGo fuel' ((cs.dropWhile (fun d => d ≠ ')')).drop 1)
      else c :: removeParensGo fuel' cs

def removeParens (l : List Char) : List Char := removeParensGo (l.length + 1) l

/-- Python str.strip: drop leading and trailing whitespace. -/
def stripEnds (l : List Char) : List Char :=
  ((l.dropWhile isSpaceChar).reverse.dropWhile isSpaceChar).reverse

/-- Replace each maximal whitespace run by one space character. -/
def collapseRuns (fuel : Nat) (l : List Char) : List Char :=
  match fuel with
  | 0 => l
  | Nat.succ fuel' =>
    match l with
    | [] => []
    | c :: cs =>
      if isSpaceChar c then ' ' :: collapseRuns fuel' (cs.dropWhile isSpaceChar)
      else c :: collapseRuns fuel' cs

/-- Third pass of _normalize_name: strip, then collapse whitespace. -/
def collapseWs (l : List Char) : List Char := collapseRuns (l.length + 1) (stripEnds l)

/-- The single-quote character (code 39). -/
def singleQuote : Char := Char.ofNat 39

/-- The double-quote character (code 34). -/
def doubleQuote : Char := Char.ofNat 34

/-- Fourth pass of _normalize_name: the two str.replace calls removing
every single-quote and double-quote character. -/
def removeQuotes (l : List Char) : List Char :=
  l.filter (fun c => ¬ (c = singleQuote ∨ c = doubleQuote))

/-- EntityResolver._normalize_name: strip titles, remove parenthetical
content, strip and collapse whitespace, remove quotes, lower-case. -/
def normalize_name (s : String) : String :=
  ⟨(removeQuotes (collapseWs (removeParens (stripTitles s.data)))).map lowerChar⟩

/-! ## HTTP chat-completion client (http_client.py)

The client is embedded up to the shape of the JSON it handles: a
response body either carries a choices list of message objects or does
not (the error dict returned for an unsupported model has no choices
key). Message objects carry optional free-text content and a tool_calls
list of function name and arguments pairs; the arguments payload is a
type parameter, instantiated per caller. -/

/-- The message object of one response choice. -/
structure ChatMsg (α : Type) where
  content : Option String
  tool_calls : List (String × α)

/-- A chat-completion response body: none models a JSON object without
a choices key (in particular the error dict built for an unsupported
model); some cs models a body whose choices list is cs. -/
abbrev ChatBody (α : Type) := Option (List (ChatMsg α))

/-- Observable outcome of one HTTP POST to /chat/completions. -/
inductive AttemptOutcome (α : Type)
  | timeout
  | error (msg : String)
  | ok (body : ChatBody α)

/-- HTTPClient.MAX_RETRIES. -/
def MAX_RETRIES : Nat := 2

/-- Whether needle occurs at the head of l. -/
def hasPrefixL : List Char → List Char → Bool
  | [], _ => true
  | _ :: _, [] => false
  | p :: ps, c :: cs => decide (p = c) && hasPrefixL ps cs

/-- Whether needle occurs as a contiguous substring of l (Python in). -/
def containsSub (needle : List Char) : List Char → Bool
  | [] => hasPrefixL needle []
  | c :: cs => hasPrefixL needle (c :: cs) || containsSub needle cs

/-- The unsupported-model test applied to the exception text: either
substring check of HTTPClient.chat_completion, line 136-139. -/
def model_not_supported (msg : String) : Bool :=
  containsSub "model_not_supported".data (lowerStr msg).data ||
  containsSub "The requested model is not supported".data msg.data

/-- The retry loop of HTTPClient.chat_completion (stream = False).
attempts i is the outcome of the i-th POST; fuel is the number of loop
iterations left (MAX_RETRIES on entry). The first component is the
Python outcome - a raised exception, None after exhausted timeouts, or
a response body - and the second counts the POSTs performed. -/
def chatLoop {α : Type} (attempts : Nat → AttemptOutcome α) (i fuel : Nat) :
    Except PyErr (Option (ChatBody α)) × Nat :=
  match fuel with
  | 0 => (.ok none, 0)
  | Nat.succ fuel' =>
    match attempts i with
    | .ok body => (.ok (some body), 1)
    | .timeout =>
      let r := chatLoop attempts (i + 1) fuel'
      (r.1, r.2 + 1)
    | .error msg =>
      if model_not_supported msg then (.ok (some none), 1)
      else if fuel' = 0 then (.error (.requestError msg), 1)
      else
        let r := chatLoop attempts (i + 1) fuel'
        (r.1, r.2 + 1)

/-- HTTPClient.chat_completion: the value returned to the caller. -/
def chat_completion {α : Type} (attempts : Nat → AttemptOutcome α) :
    Except PyErr (Option (ChatBody α)) :=
  (chatLoop attempts 0 MAX_RETRIES).1

/-- Number of network POSTs one chat_completion call performs. -/
def chat_completion_posts {α : Type} (attempts : Nat → AttemptOutcome α) : Nat :=
  (chatLoop attempts 0 MAX_RETRIES).2

/-! ## Entity resolution (resolver.py) -/

/-- The ResolutionDecision pydantic model. Its decision field is a
plain string: the model itself performs no validation of the value. -/
structure ResolutionDecision where
  decision : String
  reasoning : String
  canonical_name : Option String
deriving DecidableEq

/-- Parsed JSON arguments of a make_resolution_decision tool call; each
field may be absent, read by dict.get in the source. -/
structure ResolutionArgs where
  decision : Option String
  reasoning : Option String
  canonical_name : Option String

/-- Arguments payload of a resolver tool call: a json.loads failure, or
the parsed argument object. -/
abbrev ResolverArgs := Except Unit ResolutionArgs

/-- EntityResolver.judge_pair (lines 177-213): the interpretation of
the chat-completion result into a ResolutionDecision. The prompt and
tool schema sent do not influence this interpretation; attempts
supplies the HTTP outcomes. An empty choices list raises IndexError at
the subscript on line 184, outside any try block. -/
def judge_pair (attempts : Nat → AttemptOutcome ResolverArgs) :
    Except PyErr ResolutionDecision :=
  match chat_completion attempts with
  | .error e => .error e
  | .ok none => .ok ⟨"KEEP_SEPARATE", "API error", none⟩
  | .ok (some none) => .ok ⟨"KEEP_SEPARATE", "API error", none⟩
  | .ok (some (some [])) => .error .indexError
  | .ok (some (some (msg :: _))) =>
    match msg.tool_calls with
    | [] => .ok ⟨"KEEP_SEPARATE", "No tool calls", none⟩
    | (fname, args) :: _ =>
      if fname ≠ "make_resolution_decision" then
        .ok ⟨"KEEP_SEPARATE", "Wrong tool", none⟩
      else
        match args with
        | .error _ => .ok ⟨"KEEP_SEPARATE", "Parse error", none⟩
        | .ok a =>
          .ok ⟨a.decision.getD "KEEP_SEPARATE", a.reasoning.getD "Parse error",
               a.canonical_name⟩

/-- An observed entity as handed to resolve_and_insert. -/
structure EntityRec where
  name : String
  type' : String
  description : String
deriving DecidableEq

/-- A candidate row returned by find_candidates (the similarity column
is only interpolated into a log line and is omitted). -/
structure Candidate where
  id : String
  name : String
  type' : String
  description : String
deriving DecidableEq

/-- The candidate loop of EntityResolver.resolve_and_insert (lines
220-253). judge gives the decision the arbiter returns for a candidate.
Returns the id of the matched or merged candidate (none when the loop
falls through to _insert_entity) together with the list of candidates
that were submitted to judge_pair, in order. A LINK decision takes no
action and a KEEP_SEPARATE or any other decision value falls through to
the next candidate, exactly as in the source where only MERGE and LINK
are tested. -/
def resolve_loop (entity : EntityRec) (judge : Candidate → ResolutionDecision) :
    List Candidate → Option String × List Candidate
  | [] => (none, [])
  | c :: rest =>
    if lowerStr c.name = lowerStr entity.name ∧ c.type' = entity.type' then
      (some c.id, [])
    else if normalize_name entity.name = normalize_name c.name ∧
        c.type' = entity.type' then
      (some c.id, [])
    else
      let d := judge c
      if d.decision = "MERGE" then (some c.id, [c])
      else
        let r := resolve_loop entity judge rest
        (r.1, c :: r.2)

/-- Result of resolve_and_insert with instrumentation: the returned
node id, the candidates submitted to the arbiter, and whether
_insert_entity ran. -/
structure ResolveResult where
  id : String
  judged : List Candidate
  inserted : Bool
deriving DecidableEq

/-- EntityResolver.resolve_and_insert (lines 215-255), given the
candidate list produced by find_candidates and the id the upsert in
_insert_entity would return. -/
def resolve_and_insert (entity : EntityRec) (judge : Candidate → ResolutionDecision)
    (candidates : List Candidate) (insert_id : String) : ResolveResult :=
  let r := resolve_loop entity judge candidates
  match r.1 with
  | some i => ⟨i, r.2, false⟩
  | none => ⟨insert_id, r.2, true⟩

/-! ## Fallback clustering (community detection)

The module knowledge_base/community.py is not present under src/; only
its tests (tests/test_community.py) are. The fallback partition is
therefore modelled from the spec, see the doc comment below. -/

/-- A node-to-cluster assignment record of the clustering result. -/
structure ClusterRec where
  node_id : String
  level : Nat
  cluster_id : String
deriving DecidableEq

/-- Modelled from the spec: CommunityDetector._fallback_clustering of
the absent module knowledge_base/community.py. Per spec section 4.4:
empty graph gives an empty result; one node gives one record at level
0; more than one node gives one level-0 record per node, each node its
own singleton cluster, plus one level-1 record per node all sharing a
single cluster id; cluster ids have the format level-index rendered in
decimal. The graph enters only through its node list. -/
def fallback_clustering (nodes : List String) : List ClusterRec :=
  let level0 := nodes.enum.map (fun p => ⟨p.2, 0, "0-" ++ toString p.1⟩)
  let level1 :=
    if 1 < nodes.length then nodes.map (fun nd => ⟨nd, 1, "1-0"⟩) else []
  level0 ++ level1

/-- Decimal value of a digit character, the left inverse of
Nat.digitChar on digits below ten. -/
def charVal (c : Char) : Nat := c.toNat - 48

/-- Decode a decimal character list, most significant digit first. -/
def decodeDec (l : List Char) : Nat :=
  l.foldl (fun a c => 10 * a + charVal c) 0

theorem charVal_digitChar (m : Nat) (h : m < 10) :
    charVal (Nat.digitChar m) = m := by
  interval_cases m <;> rfl

theorem foldl_toDigitsCore (f : Nat) :
    ∀ (n : Nat) (acc : List Char), n < f →
      (Nat.toDigitsCore 10 f n acc).foldl (fun a c => 10 * a + charVal c) 0 =
        acc.foldl (fun a c => 10 * a + charVal c) n := by
  induction f with
  | zero => intro n acc h; omega
  | succ f ih =>
    intro n acc h
    rw [Nat.toDigitsCore]
    by_cases hdiv : n / 10 = 0
    · have hmod : n % 10 = n := by omega
      simp only [hdiv, if_true, List.foldl]
      rw [charVal_digitChar (n % 10) (Nat.mod_lt n (by norm_num)), hmod]
      norm_num
    · have hlt : n / 10 < f := by omega
      simp only [hdiv, if_false]
      rw [ih (n / 10) (Nat.digitChar (n % 10) :: acc) hlt]
      simp only [List.foldl]
      rw [charVal_digitChar (n % 10) (Nat.mod_lt n (by omega))]
      congr 1
      omega

theorem decodeDec_repr (n : Nat) : decodeDec (Nat.repr n).data = n := by
  have h := foldl_toDigitsCore (n + 1) n [] (Nat.lt_succ_self n)
  simpa [decodeDec, Nat.repr, Nat.toDigits, List.asString] using h

theorem nat_repr_injective : Function.Injective Nat.repr := by
  intro m n h
  have : decodeDec (Nat.repr m).data = decodeDec (Nat.repr n).data := by rw [h]
  rwa [decodeDec_repr, decodeDec_repr] at this

/-! ## Embedding service (embedding_service.py) -/

/-- Outcome the Google embedding request would have, were it sent. -/
inductive EmbOutcome
  | ok (v : List Int)
  | fail

/-- Result of GoogleEmbeddingService.embed_content: the value returned
or exception raised, the updated circuit breaker, the updated embedding
cache, and the number of embedding network requests performed. -/
structure EmbedStep where
  result : Except PyErr (List Int)
  cb : CircuitBreaker
  cache : String → Option (List Int)
  network : Nat

/-- GoogleEmbeddingService.embed_content (lines 56-135): cache lookup
first; on a miss the request goes through circuit_breaker.call. On a
success the vector is cached and returned; on a failure, and likewise
when the breaker is open, the except clause retries the cache (still a
miss, since only a success stores) and re-raises. -/
def embed_content (cache : String → Option (List Int)) (cb : CircuitBreaker)
    (now : Int) (api : EmbOutcome) (text : String) : EmbedStep :=
  match cache text with
  | some v => ⟨.ok v, cb, cache, 0⟩
  | none =>
    let outcome : CallOutcome := match api with | .ok _ => .success | .fail => .failure
    let step := cb.call now outcome
    match step.result, api with
    | .raisedOpenError, _ => ⟨.error .circuitOpen, step.cb, cache, 0⟩
    | _, .ok v =>
      ⟨.ok v, step.cb, fun t => if t = text then some v else cache t,
       if step.network then 1 else 0⟩
    | _, .fail =>
      ⟨.error .embeddingError, step.cb, cache, if step.network then 1 else 0⟩

/-! ## Community summarization (summarizer.py)

The database is modelled as explicit table values: the communities
table (the rows the summarizer reads and updates), the static
community_hierarchy table, and the static nodes, edges and
community_membership tables read at level 0. The reasoning service is
an oracle mapping the gathered context (which determines the request
built from it) to the chat-completion outcome, and the embedding
service an oracle on the embedded text. -/

/-- A finding of a community report (pydantic Finding). -/
structure Finding where
  summary : String
  explanation : String
deriving DecidableEq

/-- The CommunityReport pydantic model. The rating is a float in the
source; it is only carried into the persisted dump, never computed
with, and is modelled as an integer. -/
structure CommunityReport where
  title : String
  summary : String
  rating : Int
  findings : List Finding
deriving DecidableEq

/-- A row of the communities table, with the columns the summarizer
touches. The full_content column receives report.model_dump_json();
the JSON dump is modelled by the report value itself. -/
structure Comm where
  id : Nat
  level : Nat
  title : String
  summary : String
  full_content : Option CommunityReport
  embedding : Option (List Int)
deriving DecidableEq

/-- A row of the nodes table as read at level 0. -/
structure NodeRec where
  id : Nat
  name : String
  description : String
deriving DecidableEq

/-- A row of the edges table as read at level 0. -/
structure EdgeRec where
  source_id : Nat
  target_id : Nat
  type' : String
  description : String
deriving DecidableEq

/-- A row of the community_membership table. -/
structure MembershipRow where
  community_id : Nat
  node_id : Nat
deriving DecidableEq

/-- The static tables read by _gather_context at level 0. -/
structure GraphTables where
  nodes : List NodeRec
  edges : List EdgeRec
  membership : List MembershipRow
deriving DecidableEq

/-- Exact lookup of a node row by id (SQL join on nodes.id). -/
def lookupNode (tabs : GraphTables) (i : Nat) : Option NodeRec :=
  tabs.nodes.find? (fun nd => nd.id == i)

/-- Exact lookup of a community row by id. -/
def lookupComm (st : List Comm) (i : Nat) : Option Comm :=
  st.find? (fun c => c.id == i)

/-- CommunitySummarizer._gather_context (lines 214-276). At level 0 the
member entities (join of community_membership and nodes, LIMIT 50) and
the internal relationships (edges with both endpoints members, LIMIT
50, joined with nodes for the names); above level 0 the title and
summary of each direct child community per the community_hierarchy
table. Row order is the table order of the model; hier rows are
(parent_id, child_id). -/
def gather_context (tabs : GraphTables) (hier : List (Nat × Nat))
    (st : List Comm) (cid : Nat) (level : Nat) : String :=
  if level = 0 then
    let memberRows := tabs.membership.filter (fun m => m.community_id == cid)
    let members := (memberRows.filterMap (fun m => lookupNode tabs m.node_id)).take 50
    let memberIds := memberRows.map (fun m => m.node_id)
    let edgeLines := ((tabs.edges.filter (fun e =>
        memberIds.contains e.source_id && memberIds.contains e.target_id)).filterMap
      (fun e =>
        match lookupNode tabs e.source_id, lookupNode tabs e.target_id with
        | some n1, some n2 =>
          some ("- " ++ n1.name ++ " --[" ++ e.type' ++ "]--> " ++ n2.name ++
                ": " ++ e.description)
        | _, _ => none)).take 50
    String.intercalate "\n"
      (("### Member Entities:" ::
        members.map (fun nd => "- " ++ nd.name ++ ": " ++ nd.description)) ++
       ("\n### Internal Relationships:" :: edgeLines))
  else
    let children := (hier.filter (fun pc => pc.1 == cid)).filterMap
      (fun pc => lookupComm st pc.2)
    String.intercalate "\n"
      ("### Sub-Communities (Children):" ::
       children.map (fun c => "#### " ++ c.title ++ "\nSummary: " ++ c.summary ++ "\n"))

/-- Arguments payload of a generate_community_report tool call: a
json.loads failure, or a parsed dict that the CommunityReport pydantic
model rejects, or the valid report. -/
abbrev ReportArgs := Except Unit (Option CommunityReport)

/-- A tool (function) declaration of a chat request; the parameter
schema is not behaviourally relevant here and is elided. -/
structure ToolDef where
  name : String
deriving DecidableEq

/-- A ChatCompletionRequest as built by the summarizer: the two message
contents (roles system and user are fixed in the source), the tools
list, tool_choice, and max_tokens. The temperature keeps its default
and is omitted. -/
structure ChatRequest where
  model : String
  system_content : String
  user_content : String
  tools : Option (List ToolDef)
  tool_choice : Option String
  max_tokens : Nat
deriving DecidableEq

/-- Opening of the user prompt of _summarize_community, up to the
interpolated context (wording abridged to a skeleton; it carries no
behaviour). -/
def reportUserPrefix : String :=
  "**Task:** Analyze provided entities and relationships to generate a Community Report. **Context (Entities & Relations):** "

/-- Tail of the user prompt of _summarize_community after the
interpolated context (abridged). -/
def reportUserSuffix : String :=
  " **Requirements:** title, summary, findings, rating."

/-- The ChatCompletionRequest built by _summarize_community (lines
111-180): a system message, a user message embedding the gathered
context truncated to its first 50000 characters (the slice on line
122), the generate_community_report tool, tool_choice auto and
max_tokens 3000. -/
def summarize_request (model_name ctx : String) : ChatRequest :=
  ⟨model_name,
   "You are an expert Intelligence Analyst. Your goal is to synthesize structured data into a comprehensive report.",
   reportUserPrefix ++ ctx.take 50000 ++ reportUserSuffix,
   some [⟨"generate_community_report"⟩],
   some "auto",
   3000⟩

/-- The update _save_report applies to the one community row with the
matching id. -/
def applyReport (cid : Nat) (report : CommunityReport) (v : List Int)
    (c : Comm) : Comm :=
  if c.id = cid then
    { c with title := report.title, summary := report.summary,
             full_content := some report, embedding := some v }
  else c

/-- CommunitySummarizer._save_report (lines 308-331) with
_get_embedding (lines 278-306): embed title, a space, then summary
(raising on failure, which the caller catches) and update the row. -/
def save_report (emb : String → Except PyErr (List Int)) (st : List Comm)
    (cid : Nat) (report : CommunityReport) : Except PyErr (List Comm) :=
  match emb (report.title ++ " " ++ report.summary) with
  | .error e => .error e
  | .ok v => .ok (st.map (applyReport cid report v))

/-- The try block of _summarize_community (lines 110-209): interpret
the chat-completion outcome; only a generate_community_report tool call
with arguments the CommunityReport model accepts reaches _save_report,
every other shape returns with the table unchanged. An empty choices
list raises IndexError at the subscript on line 187 (caught by the
caller of this block). The free-text content of the message is never
read. -/
def report_try_block (emb : String → Except PyErr (List Int))
    (resp : Except PyErr (Option (ChatBody ReportArgs)))
    (st : List Comm) (cid : Nat) : Except PyErr (List Comm) :=
  match resp with
  | .error e => .error e
  | .ok none => .ok st
  | .ok (some none) => .ok st
  | .ok (some (some [])) => .error .indexError
  | .ok (some (some (msg :: _))) =>
    match msg.tool_calls with
    | [] => .ok st
    | (fname, args) :: _ =>
      if fname ≠ "generate_community_report" then .ok st
      else
        match args with
        | .error _ => .ok st
        | .ok none => .ok st
        | .ok (some report) => save_report emb st cid report

/-- The body of _summarize_community given the already gathered
context: the empty-context skip on lines 102-104, then the try block
with the except clause of line 211 that absorbs every exception. -/
def summarize_with_ctx (emb : String → Except PyErr (List Int))
    (llm : String → Except PyErr (Option (ChatBody ReportArgs)))
    (st : List Comm) (cid : Nat) (ctx : String) : Except PyErr (List Comm) :=
  if ctx = "" then .ok st
  else
    match report_try_block emb (llm ctx) st cid with
    | .error _ => .ok st
    | .ok st' => .ok st'

/-- CommunitySummarizer._summarize_community (lines 96-212). -/
def summarize_community (tabs : GraphTables) (hier : List (Nat × Nat))
    (emb : String → Except PyErr (List Int))
    (llm : String → Except PyErr (Option (ChatBody ReportArgs)))
    (st : List Comm) (cid : Nat) (level : Nat) : Except PyErr (List Comm) :=
  summarize_with_ctx emb llm st cid (gather_context tabs hier st cid level)

/-- The table _summarize_community leaves behind (it never raises, see
the C7 theorem, so this total function captures its effect). -/
def summarize_community_total (tabs : GraphTables) (hier : List (Nat × Nat))
    (emb : String → Except PyErr (List Int))
    (llm : String → Except PyErr (Option (ChatBody ReportArgs)))
    (st : List Comm) (cid : Nat) (level : Nat) : List Comm :=
  match summarize_community tabs hier emb llm st cid level with
  | .ok st' => st'
  | .error _ => st

/-- CommunitySummarizer._process_level (lines 80-94): fetch the ids of
the communities stored at the level, then summarize each in turn; an
exception in one step would abort the loop and propagate. -/
def process_level (tabs : GraphTables) (hier : List (Nat × Nat))
    (emb : String → Except PyErr (List Int))
    (llm : String → Except PyErr (Option (ChatBody ReportArgs)))
    (st0 : List Comm) (level : Nat) : Except PyErr (List Comm) :=
  ((st0.filter (fun c => c.level == level)).map (fun c => c.id)).foldl
    (fun acc cid =>
      match acc with
      | .error e => .error e
      | .ok st => summarize_community tabs hier emb llm st cid level)
    (.ok st0)

/-- SELECT MAX(level) FROM communities, defaulted to 0 on an empty
table (summarize_all lines 63-68). -/
def max_level (st : List Comm) : Nat := (st.map (fun c => c.level)).foldr max 0

/-- CommunitySummarizer.summarize_all (lines 59-78): process levels 0
through the maximum stored level, ascending. -/
def summarize_all (tabs : GraphTables) (hier : List (Nat × Nat))
    (emb : String → Except PyErr (List Int))
    (llm : String → Except PyErr (Option (ChatBody ReportArgs)))
    (st : List Comm) : Except PyErr (List Comm) :=
  (List.range (max_level st + 1)).foldl
    (fun acc level =>
      match acc with
      | .error e => .error e
      | .ok st' => process_level tabs hier emb llm st' level)
    (.ok st)

/-- One per-community processing step as observed in execution order:
the level being processed, the community id, and the context gathered
for it at that moment. -/
structure SummEvent where
  level : Nat
  cid : Nat
  ctx : String
deriving DecidableEq

/-- The steps of one _process_level call over the fetched id list, in
execution order, together with the resulting table. Instrumented twin
of the foldl in process_level. -/
def level_events (tabs : GraphTables) (hier : List (Nat × Nat))
    (emb : String → Except PyErr (List Int))
    (llm : String → Except PyErr (Option (ChatBody ReportArgs)))
    (level : Nat) (st : List Comm) : List Nat → List SummEvent × List Comm
  | [] => ([], st)
  | cid :: rest =>
    let e : SummEvent := ⟨level, cid, gather_context tabs hier st cid level⟩
    let st' := summarize_community_total tabs hier emb llm st cid level
    let r := level_events tabs hier emb llm level st' rest
    (e :: r.1, r.2)

/-- The steps of _process_level at one level from a given table. -/
def process_level_events (tabs : GraphTables) (hier : List (Nat × Nat))
    (emb : String → Except PyErr (List Int))
    (llm : String → Except PyErr (Option (ChatBody ReportArgs)))
    (st0 : List Comm) (level : Nat) : List SummEvent × List Comm :=
  level_events tabs hier emb llm level st0
    ((st0.filter (fun c => c.level == level)).map (fun c => c.id))

/-- The steps of processing a list of levels in order, with the final
table. Instrumented twin of the foldl in summarize_all. -/
def levels_events (tabs : GraphTables) (hier : List (Nat × Nat))
    (emb : String → Except PyErr (List Int))
    (llm : String → Except PyErr (Option (ChatBody ReportArgs)))
    (st : List Comm) : List Nat → List SummEvent × List Comm
  | [] => ([], st)
  | l :: ls =>
    let r := process_level_events tabs hier emb llm st l
    let r2 := levels_events tabs hier emb llm r.2 ls
    (r.1 ++ r2.1, r2.2)

/-- All per-community steps of one summarize_all call, in execution
order. -/
def summarize_all_events (tabs : GraphTables) (hier : List (Nat × Nat))
    (emb : String → Except PyErr (List Int))
    (llm : String → Except PyErr (Option (ChatBody ReportArgs)))
    (st : List Comm) : List SummEvent :=
  (levels_events tabs hier emb llm st (List.range (max_level st + 1))).1

/-- The table after summarize_all has processed levels 0 to n - 1. -/
def state_after_levels (tabs : GraphTables) (hier : List (Nat × Nat))
    (emb : String → Except PyErr (List Int))
    (llm : String → Except PyErr (Option (ChatBody ReportArgs)))
    (st : List Comm) (n : Nat) : List Comm :=
  (levels_events tabs hier emb llm st (List.range n)).2

/-- The breaker instance GoogleEmbeddingService.__init__ constructs for
the embedding dependency (failure_threshold 10, recovery_timeout 30,
default half_open_max_attempts 3; embedding_service.py lines 50-54). -/
def embedding_api_circuit_breaker : CircuitBreaker := CircuitBreaker.init 10 30 3

/-! # Theorems -/

/-! ## C9: circuit-breaker state transitions -/

/-- C9 counterexample: the claim says that in HALF_OPEN any single
failure reopens the circuit. With the default configuration
(half_open_max_attempts = 3) a breaker in HALF_OPEN with no half-open
attempts yet stays in HALF_OPEN after one failing call: the state does
not become OPEN. -/
theorem circuit_breaker_half_open_cx :
    (CircuitBreaker.call ⟨5, 60, 3, .halfOpen, 0, some 0, 0, 0, 0, 0⟩ 100 .failure).cb.state
        = .halfOpen ∧
      CircuitState.halfOpen ≠ .opened := by
  constructor
  · decide
  · decide

/-- C9 amended: in CLOSED, reaching failure_threshold consecutive
failures opens the circuit; in HALF_OPEN a failure increments the
half-open attempt counter and the circuit reopens exactly when the
counter reaches half_open_max_attempts (so a single failure reopens
only when half_open_max_attempts is at most 1); a success in any state
resets the state to CLOSED and clears the failure counter (and the
half-open counter). -/
theorem circuit_breaker_transitions :
    (∀ (cb : CircuitBreaker) (now : Int), cb.state = .closed →
        cb.failure_count + 1 ≥ cb.failure_threshold →
        (cb.record_failure now).state = .opened) ∧
    (∀ (cb : CircuitBreaker) (now : Int), cb.state = .halfOpen →
        (cb.record_failure now).half_open_attempts = cb.half_open_attempts + 1 ∧
        (cb.record_failure now).state =
          (if cb.half_open_attempts + 1 ≥ cb.half_open_max_attempts then
            CircuitState.opened else CircuitState.halfOpen)) ∧
    (∀ cb : CircuitBreaker, cb.record_success.state = .closed ∧
        cb.record_success.failure_count = 0 ∧
        cb.record_success.half_open_attempts = 0) := by
  refine ⟨?_, ?_, ?_⟩
  · intro cb now h1 h2
    simp [CircuitBreaker.record_failure, h1, h2]
  · intro cb now h1
    by_cases hA : cb.half_open_attempts + 1 ≥ cb.half_open_max_attempts
    · exact ⟨by simp [CircuitBreaker.record_failure, h1, hA],
             by simp [CircuitBreaker.record_failure, h1, hA]⟩
    · exact ⟨by simp [CircuitBreaker.record_failure, h1, hA],
             by simp [CircuitBreaker.record_failure, h1, hA]⟩
  · intro cb
    simp [CircuitBreaker.record_success]

/-- C9 witness: the amended transition facts evaluated on concrete
breakers. -/
theorem circuit_breaker_transitions_witness :
    (CircuitBreaker.record_failure ⟨2, 60, 3, .closed, 1, none, 0, 0, 0, 0⟩ 7).state
      = .opened ∧
    (CircuitBreaker.record_failure ⟨5, 60, 1, .halfOpen, 0, some 0, 0, 0, 0, 0⟩ 7).state
      = .opened :=
  ⟨circuit_breaker_transitions.1 ⟨2, 60, 3, .closed, 1, none, 0, 0, 0, 0⟩ 7
      rfl (by decide),
   by
    have h := (circuit_breaker_transitions.2.1
      ⟨5, 60, 1, .halfOpen, 0, some 0, 0, 0, 0, 0⟩ 7 rfl).2
    simpa using h⟩

/-! ## C2: circuit-breaker coverage of the two dependencies -/

/-- C2 counterexample: the claim says every chat-completion call passes
through a circuit breaker and performs no network request while that
breaker is OPEN. In the source the resolver and summarizer construct
HTTPClient directly and http_client.py contains no breaker at all: the
retry loop posts unconditionally, so no state exists in which a
chat-completion call performs zero network requests. Concretely, a call
whose first attempt succeeds performs one POST, not zero. -/
theorem chat_no_breaker_cx :
    chat_completion_posts (α := Unit) (fun _ => .ok none) = 1 ∧ (1 : Nat) ≠ 0 :=
  ⟨rfl, by decide⟩

/-- C2 amended: embedding calls (on a cache miss) pass through the
dedicated embedding breaker and, while it is OPEN with the recovery
timeout not yet elapsed, fail immediately with no embedding network
request; chat-completion calls pass through no circuit breaker - their
retry loop performs at least one POST whenever invoked. -/
theorem breaker_coverage
    (cache : String → Option (List Int)) (cb : CircuitBreaker) (now : Int)
    (api : EmbOutcome) (text : String)
    (hopen : cb.state = .opened)
    (hrec : cb.should_attempt_recovery now = false)
    (hmiss : cache text = none) :
    (embed_content cache cb now api text).network = 0 ∧
    (embed_content cache cb now api text).result = .error .circuitOpen ∧
    (∀ (α : Type) (attempts : Nat → AttemptOutcome α),
      1 ≤ chat_completion_posts attempts) := by
  obtain ⟨ft, rt, hm, st, fc, lf, ha, tr, fr, sr⟩ := cb
  obtain rfl : st = .opened := hopen
  have hrec2 : CircuitBreaker.should_attempt_recovery
      ⟨ft, rt, hm, .opened, fc, lf, ha, tr + 1, fr, sr⟩ now = false := by
    simpa [CircuitBreaker.should_attempt_recovery] using hrec
  have hstep : ∀ outc : CallOutcome,
      CircuitBreaker.call ⟨ft, rt, hm, .opened, fc, lf, ha, tr, fr, sr⟩ now outc =
        ⟨⟨ft, rt, hm, .opened, fc, lf, ha, tr + 1, fr, sr⟩, .raisedOpenError, false⟩ := by
    intro outc
    simp [CircuitBreaker.call, hrec2]
  refine ⟨?_, ?_, ?_⟩
  · simp [embed_content, hmiss, hstep]
  · simp [embed_content, hmiss, hstep]
  · intro α attempts
    simp only [chat_completion_posts, MAX_RETRIES, chatLoop]
    cases attempts 0 with
    | timeout => simp
    | error msg =>
      by_cases hm : model_not_supported msg = true
      · simp [hm]
      · simp [hm]
    | ok body => simp

/-- C2 witness: the amended breaker facts on a concrete open breaker
(last failure at time 0, recovery timeout 60, now 10) and an empty
cache. -/
theorem breaker_coverage_witness :
    (embed_content (fun _ => none) ⟨5, 60, 3, .opened, 5, some 0, 0, 0, 0, 0⟩
        10 .fail "t").network = 0 ∧
    (embed_content (fun _ => none) ⟨5, 60, 3, .opened, 5, some 0, 0, 0, 0, 0⟩
        10 .fail "t").result = .error .circuitOpen :=
  ⟨(breaker_coverage (fun _ => none) ⟨5, 60, 3, .opened, 5, some 0, 0, 0, 0, 0⟩
      10 .fail "t" rfl (by decide) rfl).1,
   (breaker_coverage (fun _ => none) ⟨5, 60, 3, .opened, 5, some 0, 0, 0, 0, 0⟩
      10 .fail "t" rfl (by decide) rfl).2.1⟩

/-! ## C1: arbiter failure handling -/

/-- C1 counterexample: the claim says an invalid decision value is
coerced to KEEP_SEPARATE. The source reads the arguments with dict.get,
whose default applies only to a missing key: a present but invalid
value is returned verbatim. A successful response whose tool call
carries decision INVALID makes judge_pair return decision INVALID. -/
theorem judge_pair_invalid_decision_cx :
    judge_pair (fun _ => .ok (some [⟨none,
        [("make_resolution_decision", .ok ⟨some "INVALID", some "r", none⟩)]⟩])) =
      .ok ⟨"INVALID", "r", none⟩ ∧ "INVALID" ≠ "KEEP_SEPARATE" :=
  ⟨rfl, by decide⟩

/-- C1 amended: judge_pair returns KEEP_SEPARATE, raising nothing, when
every attempt times out (chat_completion returns None), when the body
has no choices key (as for the unsupported-model error dict), when the
message carries no tool call, an unexpected tool name, unparsable
arguments, or parsed arguments with no decision value; and
resolve_and_insert treats every decision other than MERGE by continuing
past the candidate, falling through to the upsert insert (possibly
creating a duplicate). A present invalid decision value is passed
through verbatim rather than coerced, and a non-timeout transport
exception on the final retry attempt propagates out of judge_pair. -/
theorem judge_pair_failure_defaults :
    (judge_pair (fun _ => .timeout) = .ok ⟨"KEEP_SEPARATE", "API error", none⟩) ∧
    (judge_pair (fun _ => .ok none) = .ok ⟨"KEEP_SEPARATE", "API error", none⟩) ∧
    (∀ c : Option String, judge_pair (fun _ => .ok (some [⟨c, []⟩])) =
      .ok ⟨"KEEP_SEPARATE", "No tool calls", none⟩) ∧
    (∀ (c : Option String) (fname : String) (args : ResolverArgs),
      fname ≠ "make_resolution_decision" →
      judge_pair (fun _ => .ok (some [⟨c, [(fname, args)]⟩])) =
        .ok ⟨"KEEP_SEPARATE", "Wrong tool", none⟩) ∧
    (∀ c : Option String,
      judge_pair (fun _ => .ok (some [⟨c, [("make_resolution_decision", .error ())]⟩])) =
        .ok ⟨"KEEP_SEPARATE", "Parse error", none⟩) ∧
    (∀ (c : Option String) (r cn : Option String),
      judge_pair (fun _ => .ok (some [⟨c,
          [("make_resolution_decision", .ok ⟨none, r, cn⟩)]⟩])) =
        .ok ⟨"KEEP_SEPARATE", r.getD "Parse error", cn⟩) ∧
    (∀ (d r : String) (cn : Option String) (insert_id : String),
      d ≠ "MERGE" →
      resolve_and_insert ⟨"A", "T", ""⟩ (fun _ => ⟨d, r, cn⟩)
          [⟨"id1", "B", "U", ""⟩] insert_id =
        ⟨insert_id, [⟨"id1", "B", "U", ""⟩], true⟩) ∧
    (∀ msg : String, model_not_supported msg = false →
      judge_pair (fun _ => .error msg) = .error (.requestError msg)) := by
  refine ⟨rfl, rfl, fun c => rfl, ?_, fun c => rfl, fun c r cn => rfl, ?_, ?_⟩
  · intro c fname args h
    simp [judge_pair, chat_completion, MAX_RETRIES, chatLoop, h]
  · intro d r cn insert_id h
    have hU : ("U" : String) ≠ "T" := by decide
    by_cases hL : d = "LINK"
    · simp [resolve_and_insert, resolve_loop, hU, h, hL]
    · simp [resolve_and_insert, resolve_loop, hU, h, hL]
  · intro msg h
    simp [judge_pair, chat_completion, MAX_RETRIES, chatLoop, h]

/-- C1 witness: the hypothesised failure defaults evaluated at concrete
inputs: an unexpected tool name, a KEEP_SEPARATE decision in the
resolver loop, and a propagating transport error. -/
theorem judge_pair_failure_defaults_witness :
    judge_pair (fun _ => .ok (some [⟨none, [("other_tool", .error ())]⟩])) =
      .ok ⟨"KEEP_SEPARATE", "Wrong tool", none⟩ ∧
    resolve_and_insert ⟨"A", "T", ""⟩ (fun _ => ⟨"KEEP_SEPARATE", "x", none⟩)
        [⟨"id1", "B", "U", ""⟩] "new-id" =
      ⟨"new-id", [⟨"id1", "B", "U", ""⟩], true⟩ ∧
    judge_pair (fun _ => .error "boom") = .error (.requestError "boom") :=
  ⟨judge_pair_failure_defaults.2.2.2.1 none "other_tool" (.error ()) (by decide),
   judge_pair_failure_defaults.2.2.2.2.2.2.1 "KEEP_SEPARATE" "x" none "new-id" (by decide),
   judge_pair_failure_defaults.2.2.2.2.2.2.2 "boom" (by decide)⟩

/-! ## C4: fallback clustering -/

theorem toString_nat_injective : Function.Injective (fun n : Nat => toString n) := by
  intro m n h
  exact nat_repr_injective h

theorem string_append_left_cancel {s a b : String} (h : s ++ a = s ++ b) : a = b := by
  have hd : (s ++ a).data = (s ++ b).data := by rw [h]
  rw [String.data_append, String.data_append] at hd
  exact String.ext (List.append_cancel_left hd)

/-- C4: the fallback clustering (modelled from the spec, the module
being absent from src/) maps the empty graph to the empty list; a
single node to exactly one record, at level 0 with cluster id 0-0 and
no level-1 record; more than one node to one level-0 record per node,
the i-th node alone in cluster 0-i (all these cluster ids distinct),
plus one level-1 record per node all sharing cluster id 1-0; and every
record's cluster id has the format level-index in decimal. -/
theorem fallback_clustering_spec :
    fallback_clustering [] = [] ∧
    (∀ nd : String, fallback_clustering [nd] = [⟨nd, 0, "0-0"⟩]) ∧
    (∀ nodes : List String, 1 < nodes.length →
      fallback_clustering nodes =
        nodes.enum.map (fun p => ⟨p.2, 0, "0-" ++ toString p.1⟩) ++
          nodes.map (fun nd => ⟨nd, 1, "1-0"⟩) ∧
      (nodes.enum.map (fun p => "0-" ++ toString p.1)).Nodup) ∧
    (∀ (nodes : List String) (r : ClusterRec), r ∈ fallback_clustering nodes →
      ∃ idx : Nat, r.cluster_id = toString r.level ++ "-" ++ toString idx) := by
  refine ⟨rfl, ?_, ?_, ?_⟩
  · intro nd
    have he : ([nd] : List String).enum = [(0, nd)] := rfl
    have h0 : ("0-" ++ toString (0 : Nat)) = "0-0" := by decide
    simp [fallback_clustering, he, h0]
  · intro nodes h
    constructor
    · simp [fallback_clustering, h]
    · have hrw : nodes.enum.map (fun p => "0-" ++ toString p.1) =
          (List.range nodes.length).map (fun i => "0-" ++ toString i) := by
        rw [← List.enum_map_fst nodes, List.map_map]
        rfl
      rw [hrw]
      refine (List.nodup_range _).map ?_
      intro i j hij
      exact toString_nat_injective (string_append_left_cancel hij)
  · intro nodes r hr
    simp only [fallback_clustering, List.mem_append] at hr
    rcases hr with hr | hr
    · rcases List.mem_map.mp hr with ⟨p, _, rfl⟩
      refine ⟨p.1, ?_⟩
      show "0-" ++ toString p.1 = toString (0 : Nat) ++ "-" ++ toString p.1
      have hz : (toString (0 : Nat)) = "0" := by decide
      rw [hz]
      apply String.ext
      simp [String.data_append]
    · rcases hc : decide (1 < nodes.length) with _ | _
      · rw [if_neg (by simpa using hc)] at hr
        simp at hr
      · rw [if_pos (by simpa using hc)] at hr
        rcases List.mem_map.mp hr with ⟨nd, _, rfl⟩
        refine ⟨0, ?_⟩
        show "1-0" = toString (1 : Nat) ++ "-" ++ toString (0 : Nat)
        decide

/-- C4 witness: the multi-node clustering facts at a concrete two-node
graph. -/
theorem fallback_clustering_spec_witness :
    fallback_clustering ["a", "b"] =
      (["a", "b"].enum.map fun p => ⟨p.2, 0, "0-" ++ toString p.1⟩) ++
        ["a", "b"].map (fun nd => ⟨nd, 1, "1-0"⟩) ∧
    ((["a", "b"].enum.map fun p => "0-" ++ toString p.1)).Nodup :=
  fallback_clustering_spec.2.2.1 ["a", "b"] (by decide)

/-! ## C8: report request and response forms -/

/-- C8 counterexample: the claim says the report request is JSON-only
without tool-calling and that free-text JSON is parsed as a fallback.
The request _summarize_community builds declares the
generate_community_report tool (tools is not None), and a successful
response carrying a well-formed JSON object in its free-text content
but no tool call produces no report: the pending row is left unchanged,
the content is never parsed. -/
theorem summarizer_request_cx :
    (summarize_request "m" "ctx").tools ≠ none ∧
    summarize_with_ctx (fun _ => .ok [1])
        (fun _ => .ok (some [(⟨some "\x7b \x22title\x22: \x22T\x22 \x7d", []⟩ :
          ChatMsg ReportArgs)]))
        [⟨7, 0, "c", "Pending Summarization", none, none⟩] 7 "ctx" =
      .ok [⟨7, 0, "c", "Pending Summarization", none, none⟩] := by
  refine ⟨?_, rfl⟩
  simp [summarize_request]

/-- C8 amended: for every community the summarizer sends a tool-calling
request - the generate_community_report tool with tool_choice auto and
max_tokens 3000, the user message embedding the context truncated to
its first 50000 characters - and accepts only the tool-call response
form: a response carrying no tool call leaves the table unchanged
whatever its free-text content holds (the content is never read; the
free-text JSON extractor in utils/llm.py is not used by the
summarizer). -/
theorem summarizer_request_form :
    (∀ m ctx, (summarize_request m ctx).tools =
        some [⟨"generate_community_report"⟩] ∧
      (summarize_request m ctx).tool_choice = some "auto" ∧
      (summarize_request m ctx).max_tokens = 3000 ∧
      (summarize_request m ctx).user_content =
        reportUserPrefix ++ ctx.take 50000 ++ reportUserSuffix) ∧
    (∀ (emb : String → Except PyErr (List Int)) (content : Option String)
        (st : List Comm) (cid : Nat) (ctx : String),
      summarize_with_ctx emb
          (fun _ => .ok (some [(⟨content, []⟩ : ChatMsg ReportArgs)])) st cid ctx =
        .ok st) := by
  constructor
  · intro m ctx
    exact ⟨rfl, rfl, rfl, rfl⟩
  · intro emb content st cid ctx
    by_cases h : ctx = ""
    · simp [summarize_with_ctx, h]
    · simp [summarize_with_ctx, h, report_try_block]

/-! ## C5: exact-match fast path -/

/-- C5 counterexample: the exact-match check only short-circuits per
candidate in similarity rank order. With the exactly matching candidate
ranked second and the arbiter returning MERGE for the first, resolving
invokes the arbiter (one judged pair) and returns the first candidate's
id, not the exact match's - so the claim's "returns that candidate's
id immediately without invoking the arbiter" fails as stated. -/
theorem resolve_exact_match_cx :
    resolve_and_insert ⟨"Foo", "Person", ""⟩
        (fun c => if c.id = "id1" then ⟨"MERGE", "same", none⟩
                  else ⟨"KEEP_SEPARATE", "", none⟩)
        [⟨"id1", "Bar", "Person", ""⟩, ⟨"id2", "foo", "Person", ""⟩] "new" =
      ⟨"id1", [⟨"id1", "Bar", "Person", ""⟩], false⟩ ∧
    ("id1" : String) ≠ "id2" :=
  ⟨rfl, by decide⟩

/-- C5 amended: the exact-match fast path applies per candidate in rank
order: when the top-ranked candidate equals the entity's name
case-insensitively with equal type, its id is returned immediately, the
arbiter is never invoked and nothing is inserted. Hence resolving the
same (name, type) twice returns the same id with no duplicate whenever
the stored copy arrives top-ranked (as it does with an identical
embedding, similarity 1.0); when the exact match ranks below other
candidates, the arbiter does run on the earlier candidates and an
earlier MERGE wins instead. -/
theorem resolve_exact_first (entity : EntityRec)
    (judge : Candidate → ResolutionDecision) (c : Candidate)
    (rest : List Candidate) (insert_id : String)
    (hname : lowerStr c.name = lowerStr entity.name)
    (htype : c.type' = entity.type') :
    resolve_and_insert entity judge (c :: rest) insert_id = ⟨c.id, [], false⟩ := by
  simp [resolve_and_insert, resolve_loop, hname, htype]

/-- C5 witness: resolving Sarah Chen a second time against a store
whose top candidate is the stored Sarah Chen row. -/
theorem resolve_exact_first_witness :
    resolve_and_insert ⟨"Sarah Chen", "Person", "d2"⟩
        (fun _ => ⟨"KEEP_SEPARATE", "", none⟩)
        [⟨"id7", "sarah chen", "Person", "d1"⟩] "new" =
      ⟨"id7", [], false⟩ :=
  resolve_exact_first ⟨"Sarah Chen", "Person", "d2"⟩
    (fun _ => ⟨"KEEP_SEPARATE", "", none⟩)
    ⟨"id7", "sarah chen", "Person", "d1"⟩ [] "new" (by decide) rfl

/-! ## C6: normalization equivalence -/

/-- C6: Dr. Jane Doe and Director Jane Doe produce the identical
normalized key (as do variants differing by parenthetical content,
surrounding and repeated whitespace, quote characters, and case), and
resolving one against a store whose top candidate bears the other name
with the same type returns that candidate's id with the arbiter never
invoked and nothing inserted. -/
theorem normalize_equiv_merge :
    normalize_name "Dr. Jane Doe" = normalize_name "Director Jane Doe" ∧
    normalize_name "Jane Doe (Physicist)" = normalize_name "Jane Doe" ∧
    normalize_name "  Jane   Doe " = normalize_name "Jane Doe" ∧
    normalize_name "\x22Jane\x22 Doe" = normalize_name "Jane Doe" ∧
    normalize_name "JANE DOE" = normalize_name "Jane Doe" ∧
    (∀ (id desc desc2 : String) (judge : Candidate → ResolutionDecision)
        (rest : List Candidate) (insert_id : String),
      resolve_and_insert ⟨"Dr. Jane Doe", "Person", desc⟩ judge
          (⟨id, "Director Jane Doe", "Person", desc2⟩ :: rest) insert_id =
        ⟨id, [], false⟩) := by
  refine ⟨by decide, by decide, by decide, by decide, by decide, ?_⟩
  intro id desc desc2 judge rest insert_id
  have hnorm : normalize_name "Dr. Jane Doe" = normalize_name "Director Jane Doe" := by
    decide
  have hlow : lowerStr "Director Jane Doe" = lowerStr "Dr. Jane Doe" → False := by
    decide
  unfold resolve_and_insert resolve_loop
  rw [if_neg ?hne, if_pos ⟨hnorm, rfl⟩]
  case hne => rintro ⟨hA, -⟩; exact hlow hA

/-! ## C10: normalization idempotence -/

/-- C10 counterexample: _normalize_name is not idempotent. Removing the
parenthetical content of D(x)r. Jane exposes the title Dr. that the
first pass's title stripping (which runs before parenthesis removal)
never saw; a second application strips it: one pass gives dr. jane, a
second pass gives jane. -/
theorem normalize_name_not_idempotent_cx :
    normalize_name "D(x)r. Jane" = "dr. jane" ∧
    normalize_name (normalize_name "D(x)r. Jane") = "jane" ∧
    ("jane" : String) ≠ "dr. jane" :=
  ⟨by decide, by decide, by decide⟩

theorem toNat_ofNat_valid (n : Nat) (h : n < 55296) : (Char.ofNat n).toNat = n := by
  have hv : n.isValidChar := Or.inl h
  simp [Char.ofNat, hv, Char.ofNatAux, Char.toNat, UInt32.toNat,
    BitVec.toNat_ofNatLt]

theorem lowerChar_toNat (c : Char) :
    (lowerChar c).toNat =
      if 65 ≤ c.toNat ∧ c.toNat ≤ 90 then c.toNat + 32 else c.toNat := by
  unfold lowerChar
  split
  · rename_i h
    exact toNat_ofNat_valid _ (by omega)
  · rfl

theorem lowerChar_idem (c : Char) : lowerChar (lowerChar c) = lowerChar c := by
  have h := lowerChar_toNat c
  by_cases hc : 65 ≤ c.toNat ∧ c.toNat ≤ 90
  · rw [if_pos hc] at h
    conv_lhs => rw [lowerChar]
    rw [if_neg (by omega)]
  · rw [if_neg hc] at h
    conv_lhs => rw [lowerChar]
    rw [if_neg (by omega)]

theorem lowerChar_ne_quote (c : Char)
    (hq : ¬(c = singleQuote ∨ c = doubleQuote)) :
    ¬(lowerChar c = singleQuote ∨ lowerChar c = doubleQuote) := by
  have h := lowerChar_toNat c
  have hsq : singleQuote.toNat = 39 := by decide
  have hdq : doubleQuote.toNat = 34 := by decide
  by_cases hc : 65 ≤ c.toNat ∧ c.toNat ≤ 90
  · rw [if_pos hc] at h
    rintro (h1 | h1) <;> rw [h1] at h <;> omega
  · have : lowerChar c = c := by
      unfold lowerChar
      rw [if_neg hc]
    rw [this]
    exact hq

theorem removeQuotes_no_quote (l : List Char) :
    ∀ c ∈ removeQuotes l, ¬(c = singleQuote ∨ c = doubleQuote) := by
  intro c hc
  have h := List.of_mem_filter hc
  exact of_decide_eq_true h

/-- On every normalized name the quote-removal pass is the identity:
_normalize_name removes all quote characters and the final
lower-casing introduces none. -/
theorem removeQuotes_normalize (s : String) :
    removeQuotes (normalize_name s).data = (normalize_name s).data := by
  have hdata : (normalize_name s).data =
      (removeQuotes (collapseWs (removeParens (stripTitles s.data)))).map lowerChar :=
    rfl
  have hq : ∀ c ∈ (normalize_name s).data,
      ¬(c = singleQuote ∨ c = doubleQuote) := by
    intro c hc
    rw [hdata] at hc
    rcases List.mem_map.mp hc with ⟨c', hc', rfl⟩
    exact lowerChar_ne_quote c' (removeQuotes_no_quote _ c' hc')
  unfold removeQuotes
  rw [List.filter_eq_self]
  intro c hc
  exact decide_eq_true (hq c hc)

/-- On every normalized name the lower-casing pass is the identity:
the output of _normalize_name is already lower-cased and ASCII
lower-casing is idempotent. -/
theorem map_lowerChar_normalize (s : String) :
    (normalize_name s).data.map lowerChar = (normalize_name s).data := by
  have hdata : (normalize_name s).data =
      (removeQuotes (collapseWs (removeParens (stripTitles s.data)))).map lowerChar :=
    rfl
  conv_lhs => rw [hdata]
  rw [List.map_map, hdata]
  exact List.map_congr_left (fun a _ => lowerChar_idem a)

/-- C10 amended: _normalize_name is not idempotent in general (e.g.
D(x)r. Jane), because parenthesis removal, quote removal and whitespace
collapsing can expose material for the earlier passes of a second
application. Unconditionally, on every normalized name the
quote-removal and lower-casing passes are identities; and a second
application of _normalize_name is the identity whenever the
title-stripping, parenthesis-removal and whitespace-collapsing passes
each fix the normalized name, as they do on ordinary normalized keys
such as jane doe. -/
theorem normalize_name_second_pass :
    (∀ s : String, removeQuotes (normalize_name s).data = (normalize_name s).data) ∧
    (∀ s : String, (normalize_name s).data.map lowerChar = (normalize_name s).data) ∧
    (∀ s : String,
      stripTitles (normalize_name s).data = (normalize_name s).data →
      removeParens (normalize_name s).data = (normalize_name s).data →
      collapseWs (normalize_name s).data = (normalize_name s).data →
      normalize_name (normalize_name s) = normalize_name s) := by
  refine ⟨removeQuotes_normalize, map_lowerChar_normalize, ?_⟩
  intro s h1 h2 h3
  apply String.ext
  show (removeQuotes (collapseWs (removeParens
      (stripTitles (normalize_name s).data)))).map lowerChar =
    (normalize_name s).data
  rw [h1, h2, h3, removeQuotes_normalize s]
  exact map_lowerChar_normalize s

/-- C10 witness: the conditional second-pass identity applied at
Dr. Jane Doe, whose normalized key jane doe is fixed by the three
violable passes. -/
theorem normalize_name_second_pass_witness :
    normalize_name (normalize_name "Dr. Jane Doe") = normalize_name "Dr. Jane Doe" :=
  normalize_name_second_pass.2.2 "Dr. Jane Doe" (by decide) (by decide) (by decide)

/-! ## Summarizer infrastructure lemmas (for C7 and C3) -/

/-- The persistent identity of a community row: its id and level, the
two columns no update of the summarizer ever changes. -/
def idLevelF (c : Comm) : Nat × Nat := (c.id, c.level)

/-- The stored level of the community row with a given id. -/
def levelOf (st : List Comm) (i : Nat) : Option Nat :=
  (lookupComm st i).map (fun c => c.level)

/-- Hierarchy well-formedness: a parent row sits one level above each
of its child rows. -/
def HierOK (hier : List (Nat × Nat)) (st : List Comm) : Prop :=
  ∀ pc ∈ hier, ∀ lp lc, levelOf st pc.1 = some lp → levelOf st pc.2 = some lc →
    lp = lc + 1

theorem applyReport_id (cid : Nat) (r : CommunityReport) (v : List Int) (c : Comm) :
    (applyReport cid r v c).id = c.id := by
  unfold applyReport
  split <;> rfl

theorem applyReport_level (cid : Nat) (r : CommunityReport) (v : List Int) (c : Comm) :
    (applyReport cid r v c).level = c.level := by
  unfold applyReport
  split <;> rfl

theorem find?_cons_posP {α : Type} (p : α → Bool) (a : α) (l : List α)
    (h : p a = true) : List.find? p (a :: l) = some a := by
  simp [List.find?, h]

theorem find?_cons_negP {α : Type} (p : α → Bool) (a : α) (l : List α)
    (h : p a = false) : List.find? p (a :: l) = List.find? p l := by
  simp [List.find?, h]

theorem report_try_block_shape (emb : String → Except PyErr (List Int))
    (resp : Except PyErr (Option (ChatBody ReportArgs)))
    (st : List Comm) (cid : Nat) :
    report_try_block emb resp st cid = .ok st ∨
    (∃ e, report_try_block emb resp st cid = .error e) ∨
    (∃ r v, report_try_block emb resp st cid = .ok (st.map (applyReport cid r v))) := by
  unfold report_try_block
  rcases resp with e | o
  · exact Or.inr (Or.inl ⟨e, rfl⟩)
  rcases o with _ | cb
  · exact Or.inl rfl
  rcases cb with _ | msgs
  · exact Or.inl rfl
  rcases msgs with _ | ⟨⟨content, tcs⟩, mrest⟩
  · exact Or.inr (Or.inl ⟨.indexError, rfl⟩)
  rcases tcs with _ | ⟨⟨fname, args⟩, tcrest⟩
  · exact Or.inl rfl
  dsimp only
  by_cases hf : fname = "generate_community_report"
  · rw [if_neg (show ¬ fname ≠ "generate_community_report" from fun hcon => hcon hf)]
    rcases args with _ | rep
    · exact Or.inl rfl
    rcases rep with _ | report
    · exact Or.inl rfl
    dsimp only
    unfold save_report
    split
    · exact Or.inr (Or.inl ⟨_, rfl⟩)
    · exact Or.inr (Or.inr ⟨report, _, rfl⟩)
  · rw [if_pos hf]
    exact Or.inl rfl

theorem summarize_with_ctx_shape (emb : String → Except PyErr (List Int))
    (llm : String → Except PyErr (Option (ChatBody ReportArgs)))
    (st : List Comm) (cid : Nat) (ctx : String) :
    summarize_with_ctx emb llm st cid ctx = .ok st ∨
    ∃ r v, summarize_with_ctx emb llm st cid ctx =
      .ok (st.map (applyReport cid r v)) := by
  unfold summarize_with_ctx
  by_cases h : ctx = ""
  · rw [if_pos h]
    exact Or.inl rfl
  · rw [if_neg h]
    rcases report_try_block_shape emb (llm ctx) st cid with h1 | ⟨e, h1⟩ | ⟨r, v, h1⟩
    · rw [h1]; exact Or.inl rfl
    · rw [h1]; exact Or.inl rfl
    · rw [h1]; exact Or.inr ⟨r, v, rfl⟩

theorem summarize_community_ok (tabs : GraphTables) (hier : List (Nat × Nat))
    (emb : String → Except PyErr (List Int))
    (llm : String → Except PyErr (Option (ChatBody ReportArgs)))
    (st : List Comm) (cid level : Nat) :
    summarize_community tabs hier emb llm st cid level =
      .ok (summarize_community_total tabs hier emb llm st cid level) := by
  unfold summarize_community_total summarize_community
  rcases summarize_with_ctx_shape emb llm st cid
      (gather_context tabs hier st cid level) with h | ⟨r, v, h⟩ <;> rw [h]

theorem summarize_community_total_shape (tabs : GraphTables)
    (hier : List (Nat × Nat)) (emb : String → Except PyErr (List Int))
    (llm : String → Except PyErr (Option (ChatBody ReportArgs)))
    (st : List Comm) (cid level : Nat) :
    summarize_community_total tabs hier emb llm st cid level = st ∨
    ∃ r v, summarize_community_total tabs hier emb llm st cid level =
      st.map (applyReport cid r v) := by
  unfold summarize_community_total summarize_community
  rcases summarize_with_ctx_shape emb llm st cid
      (gather_context tabs hier st cid level) with h | ⟨r, v, h⟩
  · rw [h]; exact Or.inl rfl
  · rw [h]; exact Or.inr ⟨r, v, rfl⟩

theorem total_idLevel (tabs : GraphTables) (hier : List (Nat × Nat))
    (emb : String → Except PyErr (List Int))
    (llm : String → Except PyErr (Option (ChatBody ReportArgs)))
    (st : List Comm) (cid level : Nat) :
    (summarize_community_total tabs hier emb llm st cid level).map idLevelF =
      st.map idLevelF := by
  rcases summarize_community_total_shape tabs hier emb llm st cid level
    with h | ⟨r, v, h⟩
  · rw [h]
  · rw [h, List.map_map]
    refine List.map_congr_left ?_
    intro c _
    show idLevelF (applyReport cid r v c) = idLevelF c
    unfold idLevelF
    rw [applyReport_id, applyReport_level]

theorem lookupComm_map_applyReport (st : List Comm) (cid : Nat)
    (r : CommunityReport) (v : List Int) (i : Nat) (h : i ≠ cid) :
    lookupComm (st.map (applyReport cid r v)) i = lookupComm st i := by
  induction st with
  | nil => rfl
  | cons c cs ih =>
    unfold lookupComm at ih ⊢
    rw [List.map_cons]
    cases hc : (c.id == i) with
    | true =>
      have happ : ((applyReport cid r v c).id == i) = true := by
        rw [applyReport_id]
        exact hc
      rw [find?_cons_posP (fun (x : Comm) => x.id == i) (applyReport cid r v c)
          (cs.map (applyReport cid r v)) happ,
        find?_cons_posP (fun (x : Comm) => x.id == i) c cs hc]
      have hceq : c.id = i := by simpa using hc
      have hfix : applyReport cid r v c = c := by
        unfold applyReport
        rw [if_neg (by rw [hceq]; exact h)]
      rw [hfix]
    | false =>
      have happ : ((applyReport cid r v c).id == i) = false := by
        rw [applyReport_id]
        exact hc
      rw [find?_cons_negP (fun (x : Comm) => x.id == i) (applyReport cid r v c)
          (cs.map (applyReport cid r v)) happ,
        find?_cons_negP (fun (x : Comm) => x.id == i) c cs hc]
      exact ih

theorem lookupComm_total_ne (tabs : GraphTables) (hier : List (Nat × Nat))
    (emb : String → Except PyErr (List Int))
    (llm : String → Except PyErr (Option (ChatBody ReportArgs)))
    (st : List Comm) (cid level : Nat) (i : Nat) (h : i ≠ cid) :
    lookupComm (summarize_community_total tabs hier emb llm st cid level) i =
      lookupComm st i := by
  rcases summarize_community_total_shape tabs hier emb llm st cid level
    with h1 | ⟨r, v, h1⟩ <;> rw [h1]
  exact lookupComm_map_applyReport st cid r v i h

theorem levelOf_eq_of_idLevel :
    ∀ (st1 st2 : List Comm), st1.map idLevelF = st2.map idLevelF →
    ∀ i, levelOf st1 i = levelOf st2 i := by
  intro st1
  induction st1 with
  | nil =>
    intro st2 h i
    cases st2 with
    | nil => rfl
    | cons c cs => simp at h
  | cons c cs ih =>
    intro st2 h i
    cases st2 with
    | nil => simp at h
    | cons d ds =>
      rw [List.map_cons, List.map_cons] at h
      injection h with h1 h2
      have hid : c.id = d.id := congrArg Prod.fst h1
      have hlv : c.level = d.level := congrArg Prod.snd h1
      unfold levelOf lookupComm
      cases hc : (c.id == i) with
      | true =>
        have hdd : (d.id == i) = true := by
          rw [← hid]
          exact hc
        rw [find?_cons_posP (fun (x : Comm) => x.id == i) c cs hc,
          find?_cons_posP (fun (x : Comm) => x.id == i) d ds hdd]
        simp [hlv]
      | false =>
        have hdd : (d.id == i) = false := by
          rw [← hid]
          exact hc
        rw [find?_cons_negP (fun (x : Comm) => x.id == i) c cs hc,
          find?_cons_negP (fun (x : Comm) => x.id == i) d ds hdd]
        exact ih ds h2 i

theorem lookupComm_of_mem_nodup (st : List Comm) (c : Comm)
    (hnd : (st.map (fun x => x.id)).Nodup) (hc : c ∈ st) :
    lookupComm st c.id = some c := by
  induction st with
  | nil => cases hc
  | cons d ds ih =>
    rw [List.map_cons, List.nodup_cons] at hnd
    rcases List.mem_cons.mp hc with rfl | hc'
    · unfold lookupComm
      rw [find?_cons_posP (fun (x : Comm) => x.id == c.id) c ds (by simp)]
    · cases hd : (d.id == c.id) with
      | true =>
        exfalso
        have hmem : c.id ∈ ds.map (fun x => x.id) := List.mem_map.mpr ⟨c, hc', rfl⟩
        have hde : d.id = c.id := by simpa using hd
        rw [hde] at hnd
        exact hnd.1 hmem
      | false =>
        unfold lookupComm
        rw [find?_cons_negP (fun (x : Comm) => x.id == c.id) d ds hd]
        exact ih hnd.2 hc'

theorem level_events_levels (tabs : GraphTables) (hier : List (Nat × Nat))
    (emb : String → Except PyErr (List Int))
    (llm : String → Except PyErr (Option (ChatBody ReportArgs))) (ℓ : Nat) :
    ∀ (ids : List Nat) (st : List Comm),
      ∀ e ∈ (level_events tabs hier emb llm ℓ st ids).1, e.level = ℓ := by
  intro ids
  induction ids with
  | nil =>
    intro st e he
    simp [level_events] at he
  | cons cid rest ih =>
    intro st e he
    simp only [level_events] at he
    rcases List.mem_cons.mp he with rfl | he'
    · rfl
    · exact ih _ e he'

theorem level_events_cids (tabs : GraphTables) (hier : List (Nat × Nat))
    (emb : String → Except PyErr (List Int))
    (llm : String → Except PyErr (Option (ChatBody ReportArgs))) (ℓ : Nat) :
    ∀ (ids : List Nat) (st : List Comm),
      ((level_events tabs hier emb llm ℓ st ids).1).map (fun e => e.cid) = ids := by
  intro ids
  induction ids with
  | nil =>
    intro st
    simp [level_events]
  | cons cid rest ih =>
    intro st
    simp only [level_events, List.map_cons]
    rw [ih]

theorem level_events_fold (tabs : GraphTables) (hier : List (Nat × Nat))
    (emb : String → Except PyErr (List Int))
    (llm : String → Except PyErr (Option (ChatBody ReportArgs))) (ℓ : Nat) :
    ∀ (ids : List Nat) (st : List Comm),
      ids.foldl (fun (acc : Except PyErr (List Comm)) (cid : Nat) =>
          match acc with
          | .error e => .error e
          | .ok s => summarize_community tabs hier emb llm s cid ℓ)
        (Except.ok st) =
        .ok ((level_events tabs hier emb llm ℓ st ids).2) := by
  intro ids
  induction ids with
  | nil =>
    intro st
    rfl
  | cons cid rest ih =>
    intro st
    rw [List.foldl_cons]
    have hstep :
        (match (Except.ok st : Except PyErr (List Comm)) with
          | .error e => Except.error e
          | .ok s => summarize_community tabs hier emb llm s cid ℓ) =
          .ok (summarize_community_total tabs hier emb llm st cid ℓ) :=
      summarize_community_ok tabs hier emb llm st cid ℓ
    rw [hstep, ih]
    simp only [level_events]

theorem process_level_ok (tabs : GraphTables) (hier : List (Nat × Nat))
    (emb : String → Except PyErr (List Int))
    (llm : String → Except PyErr (Option (ChatBody ReportArgs)))
    (st0 : List Comm) (level : Nat) :
    process_level tabs hier emb llm st0 level =
      .ok ((process_level_events tabs hier emb llm st0 level).2) := by
  unfold process_level process_level_events
  exact level_events_fold tabs hier emb llm level _ st0

theorem level_events_idLevel (tabs : GraphTables) (hier : List (Nat × Nat))
    (emb : String → Except PyErr (List Int))
    (llm : String → Except PyErr (Option (ChatBody ReportArgs))) (ℓ : Nat) :
    ∀ (ids : List Nat) (st : List Comm),
      ((level_events tabs hier emb llm ℓ st ids).2).map idLevelF = st.map idLevelF := by
  intro ids
  induction ids with
  | nil =>
    intro st
    rfl
  | cons cid rest ih =>
    intro st
    simp only [level_events]
    rw [ih]
    exact total_idLevel tabs hier emb llm st cid ℓ

theorem levels_events_idLevel (tabs : GraphTables) (hier : List (Nat × Nat))
    (emb : String → Except PyErr (List Int))
    (llm : String → Except PyErr (Option (ChatBody ReportArgs))) :
    ∀ (ls : List Nat) (st : List Comm),
      ((levels_events tabs hier emb llm st ls).2).map idLevelF = st.map idLevelF := by
  intro ls
  induction ls with
  | nil =>
    intro st
    rfl
  | cons l ls' ih =>
    intro st
    simp only [levels_events]
    rw [ih]
    exact level_events_idLevel tabs hier emb llm l _ st

theorem levels_events_append (tabs : GraphTables) (hier : List (Nat × Nat))
    (emb : String → Except PyErr (List Int))
    (llm : String → Except PyErr (Option (ChatBody ReportArgs))) :
    ∀ (ls1 ls2 : List Nat) (st : List Comm),
      levels_events tabs hier emb llm st (ls1 ++ ls2) =
        ((levels_events tabs hier emb llm st ls1).1 ++
          (levels_events tabs hier emb llm
            ((levels_events tabs hier emb llm st ls1).2) ls2).1,
         (levels_events tabs hier emb llm
            ((levels_events tabs hier emb llm st ls1).2) ls2).2) := by
  intro ls1
  induction ls1 with
  | nil =>
    intro ls2 st
    simp [levels_events]
  | cons l ls1' ih =>
    intro ls2 st
    simp only [List.cons_append, levels_events, List.append_eq]
    rw [ih]
    simp [List.append_assoc]

theorem levels_events_level_mem (tabs : GraphTables) (hier : List (Nat × Nat))
    (emb : String → Except PyErr (List Int))
    (llm : String → Except PyErr (Option (ChatBody ReportArgs))) :
    ∀ (ls : List Nat) (st : List Comm),
      ∀ e ∈ (levels_events tabs hier emb llm st ls).1, e.level ∈ ls := by
  intro ls
  induction ls with
  | nil =>
    intro st e he
    simp [levels_events] at he
  | cons l ls' ih =>
    intro st e he
    simp only [levels_events] at he
    rcases List.mem_append.mp he with he1 | he2
    · have := level_events_levels tabs hier emb llm l _ _ e he1
      rw [this]
      exact List.mem_cons_self l ls'
    · exact List.mem_cons.mpr (Or.inr (ih _ e he2))

theorem pairwise_le_of_level_const (l : List SummEvent) (ℓ : Nat)
    (h : ∀ e ∈ l, e.level = ℓ) :
    List.Pairwise (fun a b => a.level ≤ b.level) l := by
  induction l with
  | nil => exact List.Pairwise.nil
  | cons x xs ih =>
    refine List.Pairwise.cons ?_ (ih ?_)
    · intro b hb
      rw [h x (List.mem_cons_self x xs), h b (List.mem_cons.mpr (Or.inr hb))]
    · intro e he
      exact h e (List.mem_cons.mpr (Or.inr he))

theorem levels_events_fold (tabs : GraphTables) (hier : List (Nat × Nat))
    (emb : String → Except PyErr (List Int))
    (llm : String → Except PyErr (Option (ChatBody ReportArgs))) :
    ∀ (ls : List Nat) (st : List Comm),
      ls.foldl (fun (acc : Except PyErr (List Comm)) (level : Nat) =>
          match acc with
          | .error e => .error e
          | .ok st' => process_level tabs hier emb llm st' level)
        (Except.ok st) =
        .ok ((levels_events tabs hier emb llm st ls).2) := by
  intro ls
  induction ls with
  | nil =>
    intro st
    rfl
  | cons l ls' ih =>
    intro st
    rw [List.foldl_cons]
    have hstep :
        (match (Except.ok st : Except PyErr (List Comm)) with
          | .error e => Except.error e
          | .ok st' => process_level tabs hier emb llm st' l) =
          .ok ((process_level_events tabs hier emb llm st l).2) :=
      process_level_ok tabs hier emb llm st l
    rw [hstep, ih]
    simp only [levels_events]

theorem summarize_all_ok (tabs : GraphTables) (hier : List (Nat × Nat))
    (emb : String → Except PyErr (List Int))
    (llm : String → Except PyErr (Option (ChatBody ReportArgs))) (st : List Comm) :
    summarize_all tabs hier emb llm st =
      .ok (state_after_levels tabs hier emb llm st (max_level st + 1)) := by
  unfold summarize_all state_after_levels
  exact levels_events_fold tabs hier emb llm _ st

/-! ## C7: per-community failure isolation -/

/-- C7: _summarize_community never raises for the enumerated failures -
the except clause converts a reasoning-service exception, and the early
returns convert a missing or wrong tool call, unparsable arguments, an
invalid report and an embedding failure, into a logged no-op with the
table unchanged - so the per-level loop runs to completion, reaching
one processing step per community of the level whatever each outcome
is; and an empty gathered context returns before the reasoning call
with the row left untouched in its pending state. -/
theorem summarizer_failure_isolation :
    (∀ tabs hier emb llm st cid level,
      summarize_community tabs hier emb llm st cid level =
        .ok (summarize_community_total tabs hier emb llm st cid level)) ∧
    (∀ tabs hier emb llm st0 level,
      process_level tabs hier emb llm st0 level =
        .ok ((process_level_events tabs hier emb llm st0 level).2) ∧
      ((process_level_events tabs hier emb llm st0 level).1).map (fun e => e.cid) =
        (st0.filter (fun c => c.level == level)).map (fun c => c.id)) ∧
    (∀ emb llm st cid, summarize_with_ctx emb llm st cid "" = .ok st) ∧
    (∀ emb e st cid ctx,
      summarize_with_ctx emb (fun _ => .error e) st cid ctx = .ok st) ∧
    (∀ emb c st cid ctx,
      summarize_with_ctx emb
        (fun _ => .ok (some [(⟨c, []⟩ : ChatMsg ReportArgs)])) st cid ctx = .ok st) ∧
    (∀ emb c fname args st cid ctx, fname ≠ "generate_community_report" →
      summarize_with_ctx emb
        (fun _ => .ok (some [(⟨c, [(fname, args)]⟩ : ChatMsg ReportArgs)]))
        st cid ctx = .ok st) ∧
    (∀ emb c st cid ctx,
      summarize_with_ctx emb
        (fun _ => .ok (some [(⟨c, [("generate_community_report",
          (.error () : ReportArgs))]⟩ : ChatMsg ReportArgs)])) st cid ctx = .ok st) ∧
    (∀ emb c st cid ctx,
      summarize_with_ctx emb
        (fun _ => .ok (some [(⟨c, [("generate_community_report",
          (.ok none : ReportArgs))]⟩ : ChatMsg ReportArgs)])) st cid ctx = .ok st) ∧
    (∀ e c rep st cid ctx,
      summarize_with_ctx (fun _ => .error e)
        (fun _ => .ok (some [(⟨c, [("generate_community_report",
          (.ok (some rep) : ReportArgs))]⟩ : ChatMsg ReportArgs)]))
        st cid ctx = .ok st) := by
  refine ⟨?_, ?_, ?_, ?_, ?_, ?_, ?_, ?_, ?_⟩
  · exact summarize_community_ok
  · intro tabs hier emb llm st0 level
    exact ⟨process_level_ok tabs hier emb llm st0 level,
      level_events_cids tabs hier emb llm level _ st0⟩
  · intro emb llm st cid
    simp [summarize_with_ctx]
  · intro emb e st cid ctx
    by_cases h : ctx = "" <;> simp [summarize_with_ctx, h, report_try_block]
  · intro emb c st cid ctx
    by_cases h : ctx = "" <;> simp [summarize_with_ctx, h, report_try_block]
  · intro emb c fname args st cid ctx hf
    by_cases h : ctx = "" <;> simp [summarize_with_ctx, h, report_try_block, hf]
  · intro emb c st cid ctx
    by_cases h : ctx = "" <;> simp [summarize_with_ctx, h, report_try_block]
  · intro emb c st cid ctx
    by_cases h : ctx = "" <;> simp [summarize_with_ctx, h, report_try_block]
  · intro e c rep st cid ctx
    by_cases h : ctx = "" <;>
      simp [summarize_with_ctx, h, report_try_block, save_report]

/-- C7 witness: the failure-isolation facts at concrete inputs - a
wrong tool name and an empty context on a concrete pending row. -/
theorem summarizer_failure_isolation_witness :
    summarize_with_ctx (fun _ => .ok [1])
      (fun _ => .ok (some [(⟨none, [("other_tool",
        (.error () : ReportArgs))]⟩ : ChatMsg ReportArgs)]))
      [⟨3, 1, "t", "Pending Summarization", none, none⟩] 3 "ctx" =
      .ok [⟨3, 1, "t", "Pending Summarization", none, none⟩] ∧
    summarize_with_ctx (fun _ => .ok [1]) (fun _ => .ok none)
      [⟨3, 1, "t", "Pending Summarization", none, none⟩] 3 "" =
      .ok [⟨3, 1, "t", "Pending Summarization", none, none⟩] :=
  ⟨summarizer_failure_isolation.2.2.2.2.2.1 (fun _ => .ok [1]) none "other_tool"
      (.error ()) [⟨3, 1, "t", "Pending Summarization", none, none⟩] 3 "ctx"
      (by decide),
   summarizer_failure_isolation.2.2.1 (fun _ => .ok [1]) (fun _ => .ok none)
      [⟨3, 1, "t", "Pending Summarization", none, none⟩] 3⟩

theorem filterMap_congrP {α β : Type} (l : List α) (f g : α → Option β)
    (h : ∀ a ∈ l, f a = g a) : l.filterMap f = l.filterMap g := by
  induction l with
  | nil => rfl
  | cons a as ih =>
    rw [List.filterMap_cons, List.filterMap_cons, h a (List.mem_cons_self a as)]
    have htail := ih (fun b hb => h b (List.mem_cons.mpr (Or.inr hb)))
    rw [htail]

theorem gather_context_children_congr (tabs : GraphTables)
    (hier : List (Nat × Nat)) (S1 S2 : List Comm) (cid ℓ : Nat) (hℓ : ℓ ≠ 0)
    (hlk : ∀ pc ∈ hier, pc.1 = cid → lookupComm S1 pc.2 = lookupComm S2 pc.2) :
    gather_context tabs hier S1 cid ℓ = gather_context tabs hier S2 cid ℓ := by
  unfold gather_context
  rw [if_neg hℓ, if_neg hℓ]
  have hch : (hier.filter (fun pc => pc.1 == cid)).filterMap
      (fun pc => lookupComm S1 pc.2) =
      (hier.filter (fun pc => pc.1 == cid)).filterMap
      (fun pc => lookupComm S2 pc.2) := by
    apply filterMap_congrP
    intro pc hpc
    exact hlk pc (List.mem_of_mem_filter hpc)
      (by simpa using List.of_mem_filter hpc)
  rw [hch]

theorem level_events_ctx (tabs : GraphTables) (hier : List (Nat × Nat))
    (emb : String → Except PyErr (List Int))
    (llm : String → Except PyErr (Option (ChatBody ReportArgs)))
    (ℓ : Nat) (S0 : List Comm) (hℓ : ℓ ≠ 0)
    (hh : ∀ pc ∈ hier, ∀ lp lc, levelOf S0 pc.1 = some lp →
      levelOf S0 pc.2 = some lc → lp = lc + 1) :
    ∀ (ids : List Nat) (S : List Comm),
    (∀ i, levelOf S0 i ≠ some ℓ → lookupComm S i = lookupComm S0 i) →
    (∀ cid ∈ ids, levelOf S0 cid = some ℓ) →
    ∀ e ∈ (level_events tabs hier emb llm ℓ S ids).1,
      e.ctx = gather_context tabs hier S0 e.cid ℓ := by
  intro ids
  induction ids with
  | nil =>
    intro S _ _ e he
    simp [level_events] at he
  | cons cid rest ih =>
    intro S hinv hcids e he
    simp only [level_events] at he
    rcases List.mem_cons.mp he with rfl | he'
    · show gather_context tabs hier S cid ℓ = gather_context tabs hier S0 cid ℓ
      apply gather_context_children_congr tabs hier S S0 cid ℓ hℓ
      intro pc hpc hpcid
      apply hinv
      intro hcon
      have hcid := hcids cid (List.mem_cons_self cid rest)
      have habs := hh pc hpc ℓ ℓ (by rw [hpcid]; exact hcid) hcon
      omega
    · refine ih (summarize_community_total tabs hier emb llm S cid ℓ) ?_ ?_ e he'
      · intro i hi
        rw [lookupComm_total_ne tabs hier emb llm S cid ℓ i ?_]
        · exact hinv i hi
        · intro hic
          exact hi (by rw [hic]; exact hcids cid (List.mem_cons_self cid rest))
      · intro c hc
        exact hcids c (List.mem_cons.mpr (Or.inr hc))

theorem map_id_eq_of_idLevel (st1 st2 : List Comm)
    (h : st1.map idLevelF = st2.map idLevelF) :
    st1.map (fun c => c.id) = st2.map (fun c => c.id) := by
  have h1 : st1.map (fun c => c.id) = (st1.map idLevelF).map Prod.fst := by
    rw [List.map_map]
    rfl
  have h2 : st2.map (fun c => c.id) = (st2.map idLevelF).map Prod.fst := by
    rw [List.map_map]
    rfl
  rw [h1, h2, h]

theorem mem_fetch_levelOf (S : List Comm) (ℓ cid : Nat)
    (hnd : (S.map (fun c => c.id)).Nodup)
    (hcid : cid ∈ (S.filter (fun c => c.level == ℓ)).map (fun c => c.id)) :
    levelOf S cid = some ℓ := by
  rcases List.mem_map.mp hcid with ⟨c, hcf, rfl⟩
  have hcS : c ∈ S := List.mem_of_mem_filter hcf
  have hcl : c.level = ℓ := by simpa using List.of_mem_filter hcf
  unfold levelOf
  rw [lookupComm_of_mem_nodup S c hnd hcS]
  simp [hcl]

theorem level_le_max (st : List Comm) (c : Comm) (hc : c ∈ st) :
    c.level ≤ max_level st := by
  unfold max_level
  induction st with
  | nil => cases hc
  | cons d ds ih =>
    simp only [List.map_cons, List.foldr_cons]
    rcases List.mem_cons.mp hc with rfl | hc'
    · exact le_max_left _ _
    · exact le_trans (ih hc') (le_max_right _ _)

theorem levels_events_range_pairwise (tabs : GraphTables)
    (hier : List (Nat × Nat)) (emb : String → Except PyErr (List Int))
    (llm : String → Except PyErr (Option (ChatBody ReportArgs)))
    (st : List Comm) :
    ∀ n, List.Pairwise (fun a b => a.level ≤ b.level)
      ((levels_events tabs hier emb llm st (List.range n)).1) := by
  intro n
  induction n with
  | zero => simp [levels_events]
  | succ n ih =>
    rw [List.range_succ, levels_events_append]
    dsimp only
    rw [List.pairwise_append]
    refine ⟨ih, ?_, ?_⟩
    · apply pairwise_le_of_level_const _ n
      intro e he
      simp only [levels_events] at he
      rcases List.mem_append.mp he with he1 | he2
      · exact level_events_levels tabs hier emb llm n _ _ e he1
      · simp [levels_events] at he2
    · intro a ha b hb
      have hmem := levels_events_level_mem tabs hier emb llm _ _ a ha
      have halt : a.level < n := List.mem_range.mp hmem
      have hbl : b.level = n := by
        simp only [levels_events] at hb
        rcases List.mem_append.mp hb with hb1 | hb2
        · exact level_events_levels tabs hier emb llm n _ _ b hb1
        · simp [levels_events] at hb2
      omega

theorem levels_events_complete (tabs : GraphTables) (hier : List (Nat × Nat))
    (emb : String → Except PyErr (List Int))
    (llm : String → Except PyErr (Option (ChatBody ReportArgs))) :
    ∀ (ls : List Nat) (st : List Comm) (i ℓ : Nat),
    (i, ℓ) ∈ st.map idLevelF → ℓ ∈ ls →
    ∃ e ∈ (levels_events tabs hier emb llm st ls).1, e.level = ℓ ∧ e.cid = i := by
  intro ls
  induction ls with
  | nil =>
    intro st i ℓ _ h
    cases h
  | cons l ls' ih =>
    intro st i ℓ hmem hl
    rcases List.mem_cons.mp hl with rfl | hl'
    · rcases List.mem_map.mp hmem with ⟨c, hcS, hceq⟩
      have hcid : c.id = i := congrArg Prod.fst hceq
      have hclv : c.level = ℓ := congrArg Prod.snd hceq
      have hin : i ∈ ((st.filter (fun c => c.level == ℓ)).map (fun c => c.id)) := by
        apply List.mem_map.mpr
        refine ⟨c, ?_, hcid⟩
        apply List.mem_filter.mpr
        exact ⟨hcS, by simp [hclv]⟩
      rw [← level_events_cids tabs hier emb llm ℓ
        ((st.filter (fun c => c.level == ℓ)).map (fun c => c.id)) st] at hin
      rcases List.mem_map.mp hin with ⟨e, heB, hecid⟩
      refine ⟨e, ?_, level_events_levels tabs hier emb llm ℓ _ _ e heB, hecid⟩
      simp only [levels_events]
      exact List.mem_append.mpr (Or.inl heB)
    · have hmem' : (i, ℓ) ∈
          ((process_level_events tabs hier emb llm st l).2).map idLevelF := by
        unfold process_level_events
        rw [level_events_idLevel]
        exact hmem
      rcases ih _ i ℓ hmem' hl' with ⟨e, heE, hee⟩
      refine ⟨e, ?_, hee⟩
      simp only [levels_events]
      exact List.mem_append.mpr (Or.inr heE)

theorem levels_events_range_ctx (tabs : GraphTables) (hier : List (Nat × Nat))
    (emb : String → Except PyErr (List Int))
    (llm : String → Except PyErr (Option (ChatBody ReportArgs)))
    (st : List Comm)
    (hnd : (st.map (fun c => c.id)).Nodup) (hh : HierOK hier st) :
    ∀ n, ∀ e ∈ (levels_events tabs hier emb llm st (List.range n)).1,
      ∀ L, e.level = L + 1 →
        e.ctx = gather_context tabs hier
          ((levels_events tabs hier emb llm st (List.range (L + 1))).2)
          e.cid (L + 1) := by
  intro n
  induction n with
  | zero =>
    intro e he
    simp [levels_events] at he
  | succ n ih =>
    rw [List.range_succ, levels_events_append]
    intro e he L hL
    dsimp only at he
    rcases List.mem_append.mp he with he1 | he2
    · exact ih e he1 L hL
    · have heB : e ∈ ((level_events tabs hier emb llm n
          ((levels_events tabs hier emb llm st (List.range n)).2)
          ((((levels_events tabs hier emb llm st (List.range n)).2).filter
            (fun c => c.level == n)).map (fun c => c.id))).1) := by
        simp only [levels_events, process_level_events] at he2
        rcases List.mem_append.mp he2 with hb | hb
        · exact hb
        · simp at hb
      have hlev : e.level = n :=
        level_events_levels tabs hier emb llm n _ _ e heB
      have hnL : n = L + 1 := by rw [← hlev, hL]
      rw [← hnL]
      set Sn := (levels_events tabs hier emb llm st (List.range n)).2 with hSn
      have hidn : Sn.map idLevelF = st.map idLevelF :=
        levels_events_idLevel tabs hier emb llm _ st
      have hndn : (Sn.map (fun c => c.id)).Nodup := by
        rw [map_id_eq_of_idLevel Sn st hidn]
        exact hnd
      have hhn : ∀ pc ∈ hier, ∀ lp lc, levelOf Sn pc.1 = some lp →
          levelOf Sn pc.2 = some lc → lp = lc + 1 := by
        intro pc hpc lp lc h1 h2
        rw [levelOf_eq_of_idLevel Sn st hidn] at h1 h2
        exact hh pc hpc lp lc h1 h2
      refine level_events_ctx tabs hier emb llm n Sn (by omega) hhn
        _ Sn (fun i _ => rfl) ?_ e heB
      intro cid hcid
      exact mem_fetch_levelOf Sn n cid hndn hcid

/-! ## C3: bottom-up level ordering and context provenance -/

/-- C3: summarize_all processes levels 0 through the maximum stored
level strictly ascending - the per-community steps carry non-decreasing
levels, every stored community gets its step at its own level, so no
level L+1 step begins before every level-L community is processed - and
the context gathered for a community at level L+1 is exactly the
gathering over the table state left by level L, namely the title and
summary text of its direct child communities as persisted then
(provided the community ids are unique and every hierarchy edge links a
parent to children one level below). The last conjunct ties the
instrumented run to summarize_all itself. -/
theorem summarizer_bottom_up (tabs : GraphTables) (hier : List (Nat × Nat))
    (emb : String → Except PyErr (List Int))
    (llm : String → Except PyErr (Option (ChatBody ReportArgs)))
    (st : List Comm)
    (hnd : (st.map (fun c => c.id)).Nodup) (hh : HierOK hier st) :
    List.Pairwise (fun a b => a.level ≤ b.level)
      (summarize_all_events tabs hier emb llm st) ∧
    (∀ c ∈ st, ∃ e ∈ summarize_all_events tabs hier emb llm st,
      e.level = c.level ∧ e.cid = c.id) ∧
    (∀ e ∈ summarize_all_events tabs hier emb llm st, ∀ L, e.level = L + 1 →
      e.ctx = gather_context tabs hier
        (state_after_levels tabs hier emb llm st (L + 1)) e.cid (L + 1)) ∧
    (∀ (S : List Comm) (cid L : Nat),
      gather_context tabs hier S cid (L + 1) =
        String.intercalate "\n" ("### Sub-Communities (Children):" ::
          ((hier.filter (fun pc => pc.1 == cid)).filterMap
            (fun pc => lookupComm S pc.2)).map
            (fun c => "#### " ++ c.title ++ "\nSummary: " ++ c.summary ++ "\n"))) ∧
    summarize_all tabs hier emb llm st =
      .ok (state_after_levels tabs hier emb llm st (max_level st + 1)) := by
  refine ⟨?_, ?_, ?_, ?_, summarize_all_ok tabs hier emb llm st⟩
  · exact levels_events_range_pairwise tabs hier emb llm st (max_level st + 1)
  · intro c hc
    apply levels_events_complete tabs hier emb llm (List.range (max_level st + 1))
      st c.id c.level
    · exact List.mem_map.mpr ⟨c, hc, rfl⟩
    · exact List.mem_range.mpr (Nat.lt_succ_of_le (level_le_max st c hc))
  · intro e he L hL
    exact levels_events_range_ctx tabs hier emb llm st hnd hh
      (max_level st + 1) e he L hL
  · intro S cid L
    unfold gather_context
    rw [if_neg (by omega)]

/-- C3 witness: the bottom-up facts on a concrete two-level store - one
level-0 community (id 1) nested under one level-1 community (id 2). -/
theorem summarizer_bottom_up_witness :
    List.Pairwise (fun a b => a.level ≤ b.level)
      (summarize_all_events ⟨[], [], []⟩ [(2, 1)] (fun _ => .error .embeddingError)
        (fun _ => .ok none)
        [⟨1, 0, "a", "Pending Summarization", none, none⟩,
         ⟨2, 1, "b", "Pending Summarization", none, none⟩]) :=
  (summarizer_bottom_up ⟨[], [], []⟩ [(2, 1)] (fun _ => .error .embeddingError)
    (fun _ => .ok none)
    [⟨1, 0, "a", "Pending Summarization", none, none⟩,
     ⟨2, 1, "b", "Pending Summarization", none, none⟩]
    (by decide)
    (by
      intro pc hpc lp lc h1 h2
      have hpc' : pc = (2, 1) := by simpa using hpc
      subst hpc'
      have h1' : (some 1 : Option Nat) = some lp := by
        rw [← h1]
        decide
      have h2' : (some 0 : Option Nat) = some lc := by
        rw [← h2]
        decide
      injection h1' with hlp
      injection h2' with hlc
      omega)).1

end KB
